import Mathlib

/- Shallow embedding of pymobiledevice3/bonjour.py.

   External collaborators (ifaddr adapters, zeroconf clients, the asyncio
   event loop) are modelled as explicit data supplied to the functions:
   a SessionEnv describes what the network delivered to one scan session
   during the shared wait window, and a TeardownEnv describes the state of
   a session's querying task and of the teardown collaborators at close
   time.  Byte strings (the keys and values of TXT properties) are
   modelled as Lean strings. -/

/-- One address entry of an ifaddr adapter: in ifaddr, `ip.ip` is a plain
string for IPv4 and an `(address, flowinfo, scope_id)` triple for IPv6;
`is_IPv4` / `is_IPv6` discriminate the two shapes. -/
inductive IPAddr
  | v4 (ip : String)
  | v6 (ip : String) (flowinfo : Nat) (scope_id : Nat)
deriving DecidableEq

/-- An ifaddr adapter: its `nice_name` plus its list of addresses. -/
structure Adapter where
  nice_name : String
  ips : List IPAddr
deriving DecidableEq

/-- Property dictionary (`Mapping[bytes, bytes]`) modelled as an
association list compared as a finite map. -/
abbrev Props := List (String × String)

/-- Python dict equality on association lists: both sides agree on the
lookup of every key occurring on either side (insertion order is
irrelevant, exactly as for `dict.__eq__`). -/
def dictEq (a b : Props) : Bool :=
  a.all (fun kv => b.lookup kv.1 == a.lookup kv.1) &&
    b.all (fun kv => a.lookup kv.1 == b.lookup kv.1)

/-- The `BonjourAnswer` dataclass: `properties`, `ips`, `port`.  The port
is copied from the listener field, which is typed `Optional[int]`. -/
structure BonjourAnswer where
  properties : Props
  ips : List String
  port : Option Nat
deriving DecidableEq

/-- Dataclass `__eq__` of `BonjourAnswer`: field-wise structural equality
with dict semantics on `properties`. -/
def answerEq (a b : BonjourAnswer) : Bool :=
  dictEq a.properties b.properties && a.ips == b.ips && a.port == b.port

/-- Python `answer in answers`: a linear scan comparing each list element
against `answer` with dataclass equality. -/
def answerMem (a : BonjourAnswer) (l : List BonjourAnswer) : Bool :=
  l.any (fun x => answerEq x a)

/-- A `(zeroconf, service_type, name, state_change)` tuple put on the
listener's queue by `async_on_service_state_change` (the zeroconf handle
itself carries no data relevant to the model). -/
structure Notification where
  service_type : String
  name : String
  state_change : Nat
deriving DecidableEq

/-- The data held by an `AsyncServiceInfo` after `async_request` returned:
its IPv4 and IPv6 address literals (as rendered by `inet_ntop`), its TXT
properties and its port. -/
structure ServiceInfo where
  v4_addresses : List String
  v6_addresses : List String
  properties : Props
  port : Nat
deriving DecidableEq

/-- What the outside world delivered to one scan session during the shared
wait window: the notifications enqueued by the discovery callback, whether
the single `async_request` issued by the querying task returned before
teardown, the record it produced, and the instant (within the window) at
which the session finished resolving.  The result computation never reads
`completionTime`; it exists so that independence from completion order can
be stated. -/
structure SessionEnv where
  notifications : List Notification
  resolveCompletes : Bool
  resolve : Notification → ServiceInfo
  completionTime : Nat

/-- The mutable state of a `BonjourListener`: `properties`, the bound
interface address `ip`, `port` and `addresses`.  The queue and the
querying task are modelled by `SessionEnv`. -/
structure BonjourListener where
  properties : Props
  ip : String
  port : Option Nat
  addresses : List String
deriving DecidableEq

/-- `BonjourListener.__init__(ip)`: empty properties, the bound ip, no
port, no addresses. -/
def BonjourListener.init (ip : String) : BonjourListener :=
  { properties := [], ip := ip, port := none, addresses := [] }

/-- Python `'%' in s`, computed over the string's character list. -/
def hasPercent (s : String) : Bool :=
  s.data.contains '%'

/-- Python `s.split('%')` over the character list (the semantics of
`str.split` with a one-character separator). -/
def splitPercentAux : List Char → List Char → List (List Char)
  | [], cur => [cur.reverse]
  | x :: xs, cur =>
    if x = '%' then cur.reverse :: splitPercentAux xs []
    else splitPercentAux xs (x :: cur)

/-- The zone extraction `self.ip.split('%')[1]`; the index access is
guarded in the source by `'%' in self.ip`, under which the split has at
least two fields and the default is never used. -/
def zoneSuffix (ip : String) : String :=
  String.mk ((splitPercentAux ip.data []).getD 1 [])

/-- `BonjourListener.query_addresses`, run as far as the session's
teardown allows.  It awaits one item from the queue (still pending at
teardown if none arrives), issues one `async_request` for it (still
pending at teardown if `resolveCompletes` is false), and on completion
stores `ipv4 + ipv6` into `addresses` — the IPv6 literals suffixed with
`'%' + self.ip.split('%')[1]` and included only when `'%' in self.ip` —
plus the record's properties and port.  Returns the final listener state
and the notifications left unread on the queue. -/
def query_addresses (l : BonjourListener) (e : SessionEnv) :
    BonjourListener × List Notification :=
  match e.notifications with
  | [] => (l, [])
  | n :: rest =>
    if e.resolveCompletes then
      let service_info := e.resolve n
      let ipv4 := service_info.v4_addresses
      let ipv6 := if hasPercent l.ip then
          service_info.v6_addresses.map (fun a => a ++ "%" ++ zoneSuffix l.ip)
        else []
      ({ l with addresses := ipv4 ++ ipv6,
                properties := service_info.properties,
                port := some service_info.port }, rest)
    else
      (l, rest)

/-- The listener of one `BonjourQuery` as it stands when the orchestrator
reads it: a fresh listener whose querying task ran against `e`. -/
def runSession (ip : String) (e : SessionEnv) : BonjourListener :=
  (query_addresses (BonjourListener.init ip) e).1

/-- The listeners of `[query_bonjour(service_name, adapter) for adapter in
ips]`, in input order; the session created for the i-th interface runs
against environment `env i` (the start index threads the position). -/
def sessionsFrom (env : Nat → SessionEnv) : Nat → List String → List BonjourListener
  | _, [] => []
  | i, ip :: rest => runSession ip (env i) :: sessionsFrom env (i + 1) rest

/-- The projection building a `BonjourAnswer` from a listener, as in
`BonjourAnswer(listener.properties, listener.addresses, listener.port)`. -/
def answerOf (l : BonjourListener) : BonjourAnswer :=
  { properties := l.properties, ips := l.addresses, port := l.port }

/-- The answer-collection part of the loop body of `browse`: skip a
listener whose `addresses` is empty, otherwise build the answer and append
it unless a structurally equal one is already present. -/
def browseStep (answers : List BonjourAnswer) (l : BonjourListener) :
    List BonjourAnswer :=
  if l.addresses.isEmpty then answers
  else
    let answer := answerOf l
    if answerMem answer answers then answers else answers ++ [answer]

/-- `browse(service_name, ips, timeout)`: create one session per interface
address in input order, wait out the shared timeout (the per-session
environments describe everything that happened during it), then iterate
the sessions in input order collecting deduplicated answers.  The teardown
half of the same loop is modelled by `browseTeardown` below; it does not
touch the collected answers. -/
def browse (service_name : String) (ips : List String) (timeout : Nat)
    (env : Nat → SessionEnv) : List BonjourAnswer :=
  (sessionsFrom env 0 ips).foldl browseStep []

/-- The answers the sessions offer to the orchestrator, in input order:
one candidate per session with non-empty `addresses`, before
deduplication. -/
def candidatesOf (L : List BonjourListener) : List BonjourAnswer :=
  L.filterMap (fun l => if l.addresses.isEmpty then none else some (answerOf l))

/-- The candidates of a whole `browse` run. -/
def browseCandidates (ips : List String) (env : Nat → SessionEnv) :
    List BonjourAnswer :=
  candidatesOf (sessionsFrom env 0 ips)

/-- One step of the already-seen scan. -/
def dedupStep (answers : List BonjourAnswer) (a : BonjourAnswer) :
    List BonjourAnswer :=
  if answerMem a answers then answers else answers ++ [a]

/-- Modelled from the spec: the "linear already-seen scan over the ordered
result list" of §9 — append each answer unless a structurally equal one is
already present, preserving first-seen order.  Used as the specification
side of the deduplication refinement. -/
def dedupKeepFirst (cs : List BonjourAnswer) : List BonjourAnswer :=
  cs.foldl dedupStep []

/-- Service-type constant for manual pairing. -/
def REMOTEPAIRING_SERVICE_NAME : String := "_remotepairing-manual-pairing._tcp.local."

/-- Service-type constant for legacy pairing. -/
def MOBDEV2_SERVICE_NAME : String := "_apple-mobdev2._tcp.local."

/-- Service-type constant for remote debugging. -/
def REMOTED_SERVICE_NAME : String := "_remoted._tcp.local."

/-- `DEFAULT_BONJOUR_TIMEOUT`: 1 second, but 2 on win32. -/
def DEFAULT_BONJOUR_TIMEOUT (win32 : Bool) : Nat :=
  if win32 then 2 else 1

/-- The win32 branch of `get_ipv6_ips`: a comprehension over adapters
that reads `adapter.ips[0]` (an IndexError when the adapter has no
addresses), keeps adapters whose first address is IPv6, and renders
`ip[0] + '%' + str(ip[2])` — the address and the numeric scope id of the
triple.  It applies no loopback filtering. -/
def get_ipv6_ips_win (adapters : List Adapter) : Except String (List String) :=
  adapters.foldlM (fun ips adapter =>
    match adapter.ips with
    | [] => Except.error "IndexError"
    | ip :: _ =>
      match ip with
      | IPAddr.v6 a _ scope_id => Except.ok (ips ++ [a ++ "%" ++ toString scope_id])
      | IPAddr.v4 _ => Except.ok ips) []

/-- The non-win32 branch of `get_ipv6_ips`: for every adapter and every
address, skip non-IPv6 entries, skip `::1` and `fe80::1`, and append
`ip.ip[0] + '%' + adapter.nice_name`. -/
def get_ipv6_ips_posix (adapters : List Adapter) : List String :=
  adapters.foldl (fun ips adapter =>
    adapter.ips.foldl (fun ips ip =>
      match ip with
      | IPAddr.v4 _ => ips
      | IPAddr.v6 a _ _ =>
        if a ∈ ["::1", "fe80::1"] then ips
        else ips ++ [a ++ "%" ++ adapter.nice_name]) ips) []

/-- `get_ipv6_ips()`: platform branch between the two variants above. -/
def get_ipv6_ips (win32 : Bool) (adapters : List Adapter) :
    Except String (List String) :=
  if win32 then get_ipv6_ips_win adapters
  else Except.ok (get_ipv6_ips_posix adapters)

/-- The interface-list computation inlined in `browse_ipv4`: for every
adapter and address, `continue` on `ip.ip == '127.0.0.1'`, `continue` on
`not ip.is_IPv4` (an IPv6 entry fails the first test too, since its `ip`
is a triple, not a string), and append `ip.ip`. -/
def browse_ipv4_ips (adapters : List Adapter) : List String :=
  adapters.foldl (fun ips adapter =>
    adapter.ips.foldl (fun ips ip =>
      match ip with
      | IPAddr.v6 _ _ _ => ips
      | IPAddr.v4 s => if s = "127.0.0.1" then ips else ips ++ [s]) ips) []

/-- `browse_ipv6(service_name, timeout)`: browse over the IPv6 interface
list.  The Except propagates the win32 branch's possible IndexError. -/
def browse_ipv6 (service_name : String) (win32 : Bool)
    (adapters : List Adapter) (timeout : Nat) (env : Nat → SessionEnv) :
    Except String (List BonjourAnswer) :=
  (get_ipv6_ips win32 adapters).map
    (fun ips => browse service_name ips timeout env)

/-- `browse_ipv4(service_name, timeout)`: browse over the IPv4 interface
list. -/
def browse_ipv4 (service_name : String) (adapters : List Adapter)
    (timeout : Nat) (env : Nat → SessionEnv) : List BonjourAnswer :=
  browse service_name (browse_ipv4_ips adapters) timeout env

/-- `browse_remoted(timeout)`. -/
def browse_remoted (win32 : Bool) (adapters : List Adapter) (timeout : Nat)
    (env : Nat → SessionEnv) : Except String (List BonjourAnswer) :=
  browse_ipv6 REMOTED_SERVICE_NAME win32 adapters timeout env

/-- `browse_mobdev2(timeout)`. -/
def browse_mobdev2 (adapters : List Adapter) (timeout : Nat)
    (env : Nat → SessionEnv) : List BonjourAnswer :=
  browse_ipv4 MOBDEV2_SERVICE_NAME adapters timeout env

/-- `browse_remotepairing(timeout)`. -/
def browse_remotepairing (adapters : List Adapter) (timeout : Nat)
    (env : Nat → SessionEnv) : List BonjourAnswer :=
  browse_ipv4 REMOTEPAIRING_SERVICE_NAME adapters timeout env

/-- The state of a session's `querying_task` at the moment close is
called: still awaiting (queue or resolve), already cancelled by an
earlier close, finished normally, or finished by raising a
non-cancellation exception that the task stored. -/
inductive TaskState
  | pending
  | cancelled
  | finished
  | failed (e : String)
deriving DecidableEq

/-- Observable teardown actions, in the order they are awaited by the
loop of `browse`. -/
inductive TeardownEvent
  | taskCancelRequested
  | taskAwaited
  | browserCancelled
  | clientClosed
deriving DecidableEq

/-- The collaborator behaviour one session's teardown runs against: the
querying task's state, and whether `AsyncServiceBrowser.async_cancel` or
`AsyncZeroconf.async_close` raise. -/
structure TeardownEnv where
  taskState : TaskState
  browserCancelError : Option String
  clientCloseError : Option String
deriving DecidableEq

/-- `BonjourListener.close`: request cancellation of the querying task and
await it, swallowing `asyncio.CancelledError`.  Awaiting a task that
already failed with a different exception re-raises that exception, which
the except clause does not catch.  Returns the emitted events, the task
state afterwards, and the propagated exception, if any. -/
def listenerClose (ts : TaskState) :
    List TeardownEvent × TaskState × Option String :=
  match ts with
  | TaskState.pending =>
      ([TeardownEvent.taskCancelRequested, TeardownEvent.taskAwaited], TaskState.cancelled, none)
  | TaskState.cancelled =>
      ([TeardownEvent.taskCancelRequested, TeardownEvent.taskAwaited], TaskState.cancelled, none)
  | TaskState.finished =>
      ([TeardownEvent.taskCancelRequested, TeardownEvent.taskAwaited], TaskState.finished, none)
  | TaskState.failed e =>
      ([TeardownEvent.taskCancelRequested, TeardownEvent.taskAwaited], TaskState.failed e, some e)

/-- The teardown part of the loop body of `browse`, for one session:
`await listener.close()`, then `await service_browser.async_cancel()`,
then `await zc.async_close()`, with no exception handling between the
steps — the first step that raises aborts the rest. -/
def teardownSession (env : TeardownEnv) : List TeardownEvent × Option String :=
  match listenerClose env.taskState with
  | (ev, _, some e) => (ev, some e)
  | (ev, _, none) =>
    match env.browserCancelError with
    | some e => (ev, some e)
    | none =>
      match env.clientCloseError with
      | some e => (ev ++ [TeardownEvent.browserCancelled], some e)
      | none => (ev ++ [TeardownEvent.browserCancelled, TeardownEvent.clientClosed], none)

/-- The teardown of the whole loop of `browse`: sessions are torn down in
order, and an exception escaping one session's teardown propagates out of
the loop, skipping every later session. -/
def browseTeardown : List TeardownEnv → List TeardownEvent × Option String
  | [] => ([], none)
  | env :: rest =>
    match teardownSession env with
    | (ev, some e) => (ev, some e)
    | (ev, none) =>
      let r := browseTeardown rest
      (ev ++ r.1, r.2)

/-- Structural inequality of answers, the relation established by the
deduplicating scan. -/
abbrev answerNe (a b : BonjourAnswer) : Prop :=
  answerEq a b = false

/-- Environment for the order witness: three sessions, each resolving to a
distinct IPv4 address. -/
def wEnvOrder : Nat → SessionEnv := fun i =>
  { notifications := [⟨"_s._tcp.local.", "svc", 0⟩],
    resolveCompletes := true,
    resolve := fun _ => ⟨["10.0.0." ++ toString i], [], [], 80⟩,
    completionTime := 0 }

/-- The same sessions with reshuffled completion instants: the middle
interface finishes first. -/
def wEnvOrder2 : Nat → SessionEnv := fun i =>
  { wEnvOrder i with completionTime := if i = 1 then 0 else 5 }

/-- Environment for the skip witness: the first session never hears a
notification, the second resolves normally. -/
def wEnvSkip : Nat → SessionEnv := fun i =>
  if i = 0 then
    { notifications := [], resolveCompletes := true,
      resolve := fun _ => ⟨[], [], [], 0⟩, completionTime := 0 }
  else
    { notifications := [⟨"_s._tcp.local.", "svc", 0⟩], resolveCompletes := true,
      resolve := fun _ => ⟨["10.0.0.9"], [], [("k", "v")], 1234⟩, completionTime := 0 }

theorem beq_swap {α : Type _} [BEq α] [LawfulBEq α] (x y : α) : (x == y) = (y == x) := by
  by_cases h : x = y
  · subst h; rfl
  · have h2 : y ≠ x := fun hh => h hh.symm
    simp [h, h2]

theorem dictEq_symm (a b : Props) : dictEq a b = dictEq b a := by
  unfold dictEq
  exact Bool.and_comm _ _

theorem answerEq_symm (a b : BonjourAnswer) : answerEq a b = answerEq b a := by
  unfold answerEq
  rw [dictEq_symm, beq_swap a.ips, beq_swap a.port]

theorem answerMem_eq_false {a : BonjourAnswer} {l : List BonjourAnswer} :
    answerMem a l = false ↔ ∀ x ∈ l, answerEq x a = false := by
  simp [answerMem, List.any_eq_false]

theorem foldl_browseStep_filterMap :
    ∀ (L : List BonjourListener) (acc : List BonjourAnswer),
      L.foldl browseStep acc = (candidatesOf L).foldl dedupStep acc := by
  intro L
  induction L with
  | nil => intro acc; rfl
  | cons l L ih =>
    intro acc
    cases haddr : l.addresses with
    | nil =>
      have h1 : candidatesOf (l :: L) = candidatesOf L := by
        simp [candidatesOf, List.filterMap_cons, haddr]
      have h2 : browseStep acc l = acc := by
        simp [browseStep, haddr]
      rw [List.foldl_cons, h2, h1, ih]
    | cons x xs =>
      have h1 : candidatesOf (l :: L) = answerOf l :: candidatesOf L := by
        simp [candidatesOf, List.filterMap_cons, haddr]
      have h2 : browseStep acc l = dedupStep acc (answerOf l) := by
        simp [browseStep, dedupStep, haddr]
      rw [List.foldl_cons, h2, h1, List.foldl_cons, ih]

theorem dedup_foldl_pairwise :
    ∀ (cs acc : List BonjourAnswer),
      acc.Pairwise answerNe → (cs.foldl dedupStep acc).Pairwise answerNe := by
  intro cs
  induction cs with
  | nil => intro acc h; exact h
  | cons a cs ih =>
    intro acc h
    by_cases hm : answerMem a acc = true
    · simpa [dedupStep, hm] using ih acc h
    · have hm' : answerMem a acc = false := by
        revert hm; cases answerMem a acc <;> simp
      have hnew : (acc ++ [a]).Pairwise answerNe := by
        rw [List.pairwise_append]
        refine ⟨h, List.pairwise_singleton _ _, ?_⟩
        intro x hx b hb
        have hb' : b = a := by simpa using hb
        subst hb'
        exact answerMem_eq_false.mp hm' x hx
      simpa [dedupStep, hm'] using ih (acc ++ [a]) hnew

theorem dedup_foldl_sublist :
    ∀ (cs acc : List BonjourAnswer),
      ∃ s, cs.foldl dedupStep acc = acc ++ s ∧ List.Sublist s cs := by
  intro cs
  induction cs with
  | nil => intro acc; exact ⟨[], by simp, List.Sublist.refl _⟩
  | cons a cs ih =>
    intro acc
    by_cases hm : answerMem a acc = true
    · obtain ⟨s, hs, hsub⟩ := ih acc
      exact ⟨s, by simpa [dedupStep, hm] using hs, hsub.cons a⟩
    · have hm' : answerMem a acc = false := by
        revert hm; cases answerMem a acc <;> simp
      obtain ⟨s, hs, hsub⟩ := ih (acc ++ [a])
      refine ⟨a :: s, ?_, hsub.cons₂ a⟩
      rw [List.foldl_cons, show dedupStep acc a = acc ++ [a] by simp [dedupStep, hm'], hs,
        List.append_assoc]
      rfl

/-- Claim C1: the answers returned by `browse` are exactly the non-empty
sessions' candidates deduplicated by the first-seen already-present scan;
in particular the result holds no two structurally equal answers and is a
subsequence of the candidate list (first-seen occurrences, in order). -/
theorem browse_dedup_first_seen (sn : String) (ips : List String) (t : Nat)
    (env : Nat → SessionEnv) :
    browse sn ips t env = dedupKeepFirst (browseCandidates ips env)
    ∧ (browse sn ips t env).Pairwise answerNe
    ∧ List.Sublist (browse sn ips t env) (browseCandidates ips env) := by
  have he : browse sn ips t env = dedupKeepFirst (browseCandidates ips env) :=
    foldl_browseStep_filterMap _ _
  refine ⟨he, ?_, ?_⟩
  · rw [he]
    exact dedup_foldl_pairwise _ [] List.Pairwise.nil
  · rw [he]
    obtain ⟨s, hs, hsub⟩ := dedup_foldl_sublist (browseCandidates ips env) []
    unfold dedupKeepFirst
    rw [hs]
    simpa using hsub

theorem runSession_congr (ip : String) (e1 e2 : SessionEnv)
    (h1 : e1.notifications = e2.notifications)
    (h2 : e1.resolveCompletes = e2.resolveCompletes)
    (h3 : e1.resolve = e2.resolve) :
    runSession ip e1 = runSession ip e2 := by
  unfold runSession query_addresses
  rw [h1, h2, h3]

theorem sessionsFrom_congr (env1 env2 : Nat → SessionEnv)
    (h : ∀ j, (env1 j).notifications = (env2 j).notifications
      ∧ (env1 j).resolveCompletes = (env2 j).resolveCompletes
      ∧ (env1 j).resolve = (env2 j).resolve) :
    ∀ (ips : List String) (k : Nat), sessionsFrom env1 k ips = sessionsFrom env2 k ips := by
  intro ips
  induction ips with
  | nil => intro k; rfl
  | cons ip rest ih =>
    intro k
    unfold sessionsFrom
    rw [ih (k + 1), runSession_congr ip (env1 k) (env2 k) (h k).1 (h k).2.1 (h k).2.2]

theorem sessionsFrom_ext (env1 env2 : Nat → SessionEnv) (h : ∀ j, env1 j = env2 j) :
    ∀ (ips : List String) (k : Nat), sessionsFrom env1 k ips = sessionsFrom env2 k ips := by
  intro ips
  induction ips with
  | nil => intro k; rfl
  | cons ip rest ih =>
    intro k
    unfold sessionsFrom
    rw [ih (k + 1), h k]

theorem sessionsFrom_succ (env : Nat → SessionEnv) :
    ∀ (ips : List String) (k : Nat),
      sessionsFrom env (k + 1) ips = sessionsFrom (fun j => env (j + 1)) k ips := by
  intro ips
  induction ips with
  | nil => intro k; rfl
  | cons ip rest ih =>
    intro k
    unfold sessionsFrom
    rw [ih (k + 1)]

theorem foldl_browseStep_all_new :
    ∀ (L : List BonjourListener) (acc : List BonjourAnswer),
      (∀ l ∈ L, l.addresses ≠ []) →
      (L.map answerOf).Pairwise answerNe →
      (∀ x ∈ acc, ∀ l ∈ L, answerEq (answerOf l) x = false) →
      L.foldl browseStep acc = acc ++ L.map answerOf := by
  intro L
  induction L with
  | nil => intro acc _ _ _; simp
  | cons l L ih =>
    intro acc hne hpw hacc
    have hl : l.addresses ≠ [] := hne l (List.mem_cons_self _ _)
    have hEmpty : l.addresses.isEmpty = false := by
      cases h : l.addresses with
      | nil => exact absurd h hl
      | cons _ _ => rfl
    have hmem : answerMem (answerOf l) acc = false :=
      answerMem_eq_false.mpr (fun x hx => by
        rw [answerEq_symm]
        exact hacc x hx l (List.mem_cons_self _ _))
    have hstep : browseStep acc l = acc ++ [answerOf l] := by
      simp [browseStep, hEmpty, hmem]
    have hpw' : (∀ a ∈ L, answerNe (answerOf l) (answerOf a))
        ∧ (L.map answerOf).Pairwise answerNe := by
      simpa using hpw
    have hacc' : ∀ x ∈ acc ++ [answerOf l], ∀ l2 ∈ L, answerEq (answerOf l2) x = false := by
      intro x hx l2 hl2
      rcases List.mem_append.mp hx with hx | hx
      · exact hacc x hx l2 (List.mem_cons_of_mem _ hl2)
      · have hx' : x = answerOf l := by simpa using hx
        subst hx'
        rw [answerEq_symm]
        exact hpw'.1 l2 hl2
    rw [List.foldl_cons, hstep,
      ih (acc ++ [answerOf l]) (fun x hx => hne x (List.mem_cons_of_mem _ hx)) hpw'.2 hacc',
      List.map_cons, List.append_assoc, List.singleton_append]

/-- Claim C2: the answers `browse` returns follow the input interface
order — with every session producing a candidate and all candidates
pairwise structurally distinct, the result is exactly the per-session
answers in input order; and the result is unchanged under any
reassignment of the sessions' completion instants (environments agreeing
on everything except `completionTime`), so completion order is
irrelevant. -/
theorem browse_reports_input_order (sn : String) (ips : List String) (t : Nat)
    (env env2 : Nat → SessionEnv)
    (hsame : ∀ i, (env2 i).notifications = (env i).notifications
      ∧ (env2 i).resolveCompletes = (env i).resolveCompletes
      ∧ (env2 i).resolve = (env i).resolve)
    (hne : ∀ l ∈ sessionsFrom env 0 ips, l.addresses ≠ [])
    (hdist : ((sessionsFrom env 0 ips).map answerOf).Pairwise answerNe) :
    browse sn ips t env = (sessionsFrom env 0 ips).map answerOf
    ∧ browse sn ips t env2 = browse sn ips t env := by
  constructor
  · unfold browse
    have h := foldl_browseStep_all_new (sessionsFrom env 0 ips) [] hne hdist
      (by intro x hx; exact absurd hx (List.not_mem_nil x))
    simpa using h
  · unfold browse
    rw [sessionsFrom_congr env2 env hsame ips 0]

/-- Claim C2 witness: on interfaces A, B, C with distinct answers the
result is in input order, and reshuffled completion times leave it
unchanged. -/
theorem browse_reports_input_order_witness :
    browse "_s._tcp.local." ["ipA", "ipB", "ipC"] 1 wEnvOrder
      = (sessionsFrom wEnvOrder 0 ["ipA", "ipB", "ipC"]).map answerOf
    ∧ browse "_s._tcp.local." ["ipA", "ipB", "ipC"] 1 wEnvOrder2
      = browse "_s._tcp.local." ["ipA", "ipB", "ipC"] 1 wEnvOrder :=
  browse_reports_input_order "_s._tcp.local." ["ipA", "ipB", "ipC"] 1 wEnvOrder wEnvOrder2
    (fun _ => ⟨rfl, rfl, rfl⟩) (by decide) (by decide)

theorem sessionsFrom_cons (env : Nat → SessionEnv) (k : Nat) (ip : String)
    (rest : List String) :
    sessionsFrom env k (ip :: rest)
      = runSession ip (env k) :: sessionsFrom env (k + 1) rest := rfl

theorem runSession_unresolved (ip : String) (e : SessionEnv)
    (h : e.notifications = [] ∨ e.resolveCompletes = false) :
    (runSession ip e).addresses = [] := by
  rcases h with h | h
  · unfold runSession query_addresses
    rw [h]
    rfl
  · cases hn : e.notifications with
    | nil =>
      unfold runSession query_addresses
      rw [hn]
      rfl
    | cons n rest =>
      unfold runSession query_addresses
      rw [hn, h]
      simp [BonjourListener.init]

theorem foldl_browseStep_eraseIdx :
    ∀ (ips : List String) (env : Nat → SessionEnv) (i : Nat) (acc : List BonjourAnswer),
      i < ips.length →
      ((env i).notifications = [] ∨ (env i).resolveCompletes = false) →
      (sessionsFrom env 0 ips).foldl browseStep acc
        = (sessionsFrom (fun j => if j < i then env j else env (j + 1)) 0
            (ips.eraseIdx i)).foldl browseStep acc := by
  intro ips
  induction ips with
  | nil => intro env i acc hi _; exact absurd hi (Nat.not_lt_zero i)
  | cons ip rest ih =>
    intro env i acc hi h
    cases i with
    | zero =>
      have haddr : (runSession ip (env 0)).addresses = [] :=
        runSession_unresolved ip (env 0) h
      have hstep : browseStep acc (runSession ip (env 0)) = acc := by
        simp [browseStep, haddr]
      have hera : (ip :: rest).eraseIdx 0 = rest := rfl
      rw [sessionsFrom_cons, List.foldl_cons, hstep, hera, sessionsFrom_succ env rest 0]
      exact congrArg (fun L => List.foldl browseStep acc L)
        (sessionsFrom_ext (fun j => env (j + 1))
          (fun j => if j < 0 then env j else env (j + 1))
          (fun j => by
            show env (j + 1) = if j < 0 then env j else env (j + 1)
            rw [if_neg (Nat.not_lt_zero j)]) rest 0)
    | succ i2 =>
      have hi' : i2 < rest.length := Nat.lt_of_succ_lt_succ hi
      have hera : (ip :: rest).eraseIdx (i2 + 1) = ip :: rest.eraseIdx i2 := rfl
      rw [sessionsFrom_cons, List.foldl_cons, hera, sessionsFrom_cons, List.foldl_cons]
      have h0 : (if 0 < i2 + 1 then env 0 else env (0 + 1)) = env 0 :=
        if_pos (Nat.succ_pos i2)
      rw [h0, sessionsFrom_succ env rest 0,
        ih (fun j => env (j + 1)) i2 (browseStep acc (runSession ip (env 0))) hi' h,
        sessionsFrom_succ (fun j => if j < i2 + 1 then env j else env (j + 1))
          (rest.eraseIdx i2) 0]
      exact congrArg
        (fun L => List.foldl browseStep (browseStep acc (runSession ip (env 0))) L)
        (sessionsFrom_ext
          (fun j => if j < i2 then env (j + 1) else env (j + 1 + 1))
          (fun j => if j + 1 < i2 + 1 then env (j + 1) else env (j + 1 + 1))
          (fun j => by
            show (if j < i2 then env (j + 1) else env (j + 1 + 1))
              = if j + 1 < i2 + 1 then env (j + 1) else env (j + 1 + 1)
            by_cases hj : j < i2
            · rw [if_pos hj, if_pos (Nat.succ_lt_succ hj)]
            · rw [if_neg hj, if_neg (fun hc => hj (Nat.lt_of_succ_lt_succ hc))])
          (rest.eraseIdx i2) 0)

/-- Claim C8: a session that saw no notification, or whose resolve did
not complete before teardown, keeps its `addresses` empty, and `browse`
returns exactly what it would return without that interface in the list —
the session contributes nothing and surfaces no error. -/
theorem unresolved_session_skipped (sn : String) (ips : List String) (t : Nat)
    (env : Nat → SessionEnv) (i : Nat) (hi : i < ips.length)
    (h : (env i).notifications = [] ∨ (env i).resolveCompletes = false) :
    (runSession ips[i] (env i)).addresses = []
    ∧ browse sn ips t env
      = browse sn (ips.eraseIdx i) t (fun j => if j < i then env j else env (j + 1)) :=
  ⟨runSession_unresolved _ _ h, foldl_browseStep_eraseIdx ips env i [] hi h⟩

/-- Claim C8 witness: with the first of two interfaces unresolved, its
listener holds no addresses and the browse result equals the result for
the one-interface list. -/
theorem unresolved_session_skipped_witness :
    (runSession "lo0" (wEnvSkip 0)).addresses = []
    ∧ browse "_s._tcp.local." ["lo0", "en0"] 1 wEnvSkip
      = browse "_s._tcp.local." ["en0"] 1
          (fun j => if j < 0 then wEnvSkip j else wEnvSkip (j + 1)) :=
  unresolved_session_skipped "_s._tcp.local." ["lo0", "en0"] 1 wEnvSkip 0
    (by decide) (Or.inl rfl)

/-- Claim C4: for a session whose resolution completes, if the bound
interface address carries a zone (`'%' in self.ip`) then `addresses` is
exactly the resolved IPv4 literals (unsuffixed) followed by the resolved
IPv6 literals each suffixed with `%` and the bound address's zone — so
every address is either a verbatim IPv4 literal or an IPv6 literal ending
in the interface's zone suffix; and if the bound address carries no zone,
no IPv6 literal is included at all. -/
theorem query_addresses_zone_suffix (ip : String) (e : SessionEnv)
    (n : Notification) (rest : List Notification)
    (hn : e.notifications = n :: rest) (hc : e.resolveCompletes = true) :
    (hasPercent ip = true →
      (runSession ip e).addresses
        = (e.resolve n).v4_addresses
          ++ (e.resolve n).v6_addresses.map (fun a => a ++ "%" ++ zoneSuffix ip)
      ∧ ∀ s ∈ (runSession ip e).addresses,
          s ∈ (e.resolve n).v4_addresses
          ∨ ∃ a ∈ (e.resolve n).v6_addresses, s = a ++ "%" ++ zoneSuffix ip)
    ∧ (hasPercent ip = false →
      (runSession ip e).addresses = (e.resolve n).v4_addresses) := by
  constructor
  · intro hz
    have haddr : (runSession ip e).addresses
        = (e.resolve n).v4_addresses
          ++ (e.resolve n).v6_addresses.map (fun a => a ++ "%" ++ zoneSuffix ip) := by
      unfold runSession query_addresses
      rw [hn, hc]
      simp [BonjourListener.init, hz]
    refine ⟨haddr, ?_⟩
    intro s hs
    rw [haddr] at hs
    rcases List.mem_append.mp hs with hs | hs
    · exact Or.inl hs
    · obtain ⟨a, ha, hsa⟩ := List.mem_map.mp hs
      exact Or.inr ⟨a, ha, hsa.symm⟩
  · intro hz
    unfold runSession query_addresses
    rw [hn, hc]
    simp [BonjourListener.init, hz]

/-- Claim C4 witness: a session bound to `fe80::9%en0` resolving one IPv4
and two IPv6 literals reports the IPv4 literal verbatim and both IPv6
literals suffixed with `%en0`. -/
theorem query_addresses_zone_suffix_witness :
    (runSession "fe80::9%en0"
        { notifications := [⟨"_s._tcp.local.", "svc", 0⟩], resolveCompletes := true,
          resolve := fun _ => ⟨["10.0.0.7"], ["fe80::5", "fe80::6"], [("k", "v")], 7000⟩,
          completionTime := 0 }).addresses
      = ["10.0.0.7"]
        ++ ["fe80::5", "fe80::6"].map (fun a => a ++ "%" ++ zoneSuffix "fe80::9%en0") := by
  have h := query_addresses_zone_suffix "fe80::9%en0"
    { notifications := [⟨"_s._tcp.local.", "svc", 0⟩], resolveCompletes := true,
      resolve := fun _ => ⟨["10.0.0.7"], ["fe80::5", "fe80::6"], [("k", "v")], 7000⟩,
      completionTime := 0 }
    ⟨"_s._tcp.local.", "svc", 0⟩ [] rfl rfl
  exact (h.1 (by decide)).1

/-- Claim C10: a session bound to an interface address with no `%` zone
suffix (in particular any IPv4 address) reports only the resolved IPv4
literals; the resolved record's IPv6 addresses are dropped entirely. -/
theorem unscoped_session_drops_ipv6 (ip : String) (e : SessionEnv)
    (n : Notification) (rest : List Notification)
    (hn : e.notifications = n :: rest) (hc : e.resolveCompletes = true)
    (hz : hasPercent ip = false) :
    (runSession ip e).addresses = (e.resolve n).v4_addresses
    ∧ ∀ s ∈ (runSession ip e).addresses, s ∈ (e.resolve n).v4_addresses := by
  have haddr : (runSession ip e).addresses = (e.resolve n).v4_addresses := by
    unfold runSession query_addresses
    rw [hn, hc]
    simp [BonjourListener.init, hz]
  exact ⟨haddr, fun s hs => haddr ▸ hs⟩

/-- Claim C10 witness: a session bound to the plain IPv4 address
`10.0.0.3` whose resolved record holds one IPv4 and one IPv6 literal
reports only the IPv4 literal. -/
theorem unscoped_session_drops_ipv6_witness :
    (runSession "10.0.0.3"
        { notifications := [⟨"_s._tcp.local.", "svc", 0⟩], resolveCompletes := true,
          resolve := fun _ => ⟨["10.0.0.7"], ["fe80::5"], [], 7000⟩,
          completionTime := 0 }).addresses
      = ["10.0.0.7"] :=
  (unscoped_session_drops_ipv6 "10.0.0.3"
    { notifications := [⟨"_s._tcp.local.", "svc", 0⟩], resolveCompletes := true,
      resolve := fun _ => ⟨["10.0.0.7"], ["fe80::5"], [], 7000⟩,
      completionTime := 0 }
    ⟨"_s._tcp.local.", "svc", 0⟩ [] rfl rfl (by decide)).1

/-- Claim C7: the querying task dequeues exactly the first notification —
the remaining queue is the tail, untouched; the final listener state is
the same as if only that first notification had ever been enqueued; and
when the resolve completes, `addresses`, `properties` and `port` are
populated from the single resolve of that notification. -/
theorem single_notification_consumed (l : BonjourListener) (e : SessionEnv)
    (n : Notification) (rest : List Notification)
    (hn : e.notifications = n :: rest) :
    (query_addresses l e).2 = rest
    ∧ (query_addresses l e).1
        = (query_addresses l { e with notifications := [n] }).1
    ∧ (e.resolveCompletes = true →
        (query_addresses l e).1.addresses
          = (e.resolve n).v4_addresses
            ++ (if hasPercent l.ip then
                (e.resolve n).v6_addresses.map (fun a => a ++ "%" ++ zoneSuffix l.ip)
              else [])
        ∧ (query_addresses l e).1.properties = (e.resolve n).properties
        ∧ (query_addresses l e).1.port = some (e.resolve n).port) := by
  by_cases hc : e.resolveCompletes = true
  · refine ⟨?_, ?_, ?_⟩
    · unfold query_addresses
      rw [hn, hc]
      simp
    · unfold query_addresses
      rw [hn, hc]
      simp [hc]
    · intro _
      unfold query_addresses
      rw [hn, hc]
      by_cases hz : hasPercent l.ip = true
      · simp [hz]
      · have hz' : hasPercent l.ip = false := by
          revert hz; cases hasPercent l.ip <;> simp
        simp [hz']
  · have hc' : e.resolveCompletes = false := by
      revert hc; cases e.resolveCompletes <;> simp
    refine ⟨?_, ?_, fun hcc => absurd hcc hc⟩
    · unfold query_addresses
      rw [hn, hc']
      rfl
    · unfold query_addresses
      rw [hn, hc']
      simp [hc']

/-- Claim C7 witness: with two queued notifications, the first is
consumed and resolved, the second left unread, and the state matches the
single-notification run. -/
theorem single_notification_consumed_witness :
    (query_addresses (BonjourListener.init "10.0.0.3")
        { notifications := [⟨"_s._tcp.local.", "first", 0⟩, ⟨"_s._tcp.local.", "second", 0⟩],
          resolveCompletes := true,
          resolve := fun _ => ⟨["10.0.0.7"], [], [("k", "v")], 7000⟩,
          completionTime := 0 }).2
      = [⟨"_s._tcp.local.", "second", 0⟩] := by
  have h := single_notification_consumed (BonjourListener.init "10.0.0.3")
    { notifications := [⟨"_s._tcp.local.", "first", 0⟩, ⟨"_s._tcp.local.", "second", 0⟩],
      resolveCompletes := true,
      resolve := fun _ => ⟨["10.0.0.7"], [], [("k", "v")], 7000⟩,
      completionTime := 0 }
    ⟨"_s._tcp.local.", "first", 0⟩ [⟨"_s._tcp.local.", "second", 0⟩] rfl
  exact h.1

theorem foldl_preserve {α : Type _} (P : String → Prop)
    (f : List String → α → List String)
    (hf : ∀ acc x, (∀ s ∈ acc, P s) → ∀ s ∈ f acc x, P s) :
    ∀ (L : List α) (acc : List String), (∀ s ∈ acc, P s) → ∀ s ∈ L.foldl f acc, P s := by
  intro L
  induction L with
  | nil => intro acc h; exact h
  | cons x L ih => intro acc h; exact ih (f acc x) (hf acc x h)

theorem browse_ipv4_ips_no_loopback (adapters : List Adapter) :
    ∀ s ∈ browse_ipv4_ips adapters, s ≠ "127.0.0.1" := by
  unfold browse_ipv4_ips
  refine foldl_preserve _ _ ?_ adapters [] (by intro s hs; exact absurd hs (List.not_mem_nil s))
  intro acc adapter hacc
  refine foldl_preserve _ _ ?_ adapter.ips acc hacc
  intro acc2 ip hacc2 s hs
  cases ip with
  | v6 a fl sc => exact hacc2 s hs
  | v4 str =>
    have hs2 : s ∈ (if str = "127.0.0.1" then acc2 else acc2 ++ [str]) := hs
    by_cases hstr : str = "127.0.0.1"
    · rw [show (if str = "127.0.0.1" then acc2 else acc2 ++ [str]) = acc2
          from if_pos hstr] at hs2
      exact hacc2 s hs2
    · rw [show (if str = "127.0.0.1" then acc2 else acc2 ++ [str]) = acc2 ++ [str]
          from if_neg hstr] at hs2
      rcases List.mem_append.mp hs2 with hs | hs
      · exact hacc2 s hs
      · have hs' : s = str := by simpa using hs
        rw [hs']
        exact hstr

theorem get_ipv6_ips_posix_filtered (adapters : List Adapter) :
    ∀ s ∈ get_ipv6_ips_posix adapters,
      ∃ a zone, s = a ++ "%" ++ zone ∧ a ≠ "::1" ∧ a ≠ "fe80::1" := by
  unfold get_ipv6_ips_posix
  refine foldl_preserve _ _ ?_ adapters [] (by intro s hs; exact absurd hs (List.not_mem_nil s))
  intro acc adapter hacc
  refine foldl_preserve _ _ ?_ adapter.ips acc hacc
  intro acc2 ip hacc2 s hs
  cases ip with
  | v4 a => exact hacc2 s hs
  | v6 a fl sc =>
    have hs2 : s ∈ (if a ∈ ["::1", "fe80::1"] then acc2
        else acc2 ++ [a ++ "%" ++ adapter.nice_name]) := hs
    by_cases ha : a ∈ ["::1", "fe80::1"]
    · rw [show (if a ∈ ["::1", "fe80::1"] then acc2 else acc2 ++ [a ++ "%" ++ adapter.nice_name])
          = acc2 from if_pos ha] at hs2
      exact hacc2 s hs2
    · rw [show (if a ∈ ["::1", "fe80::1"] then acc2 else acc2 ++ [a ++ "%" ++ adapter.nice_name])
          = acc2 ++ [a ++ "%" ++ adapter.nice_name] from if_neg ha] at hs2
      rcases List.mem_append.mp hs2 with hs | hs
      · exact hacc2 s hs
      · have hs' : s = a ++ "%" ++ adapter.nice_name := by simpa using hs
        have ha1 : a ≠ "::1" := fun hh => ha (by rw [hh]; exact List.mem_cons_self _ _)
        have ha2 : a ≠ "fe80::1" := fun hh => ha (by rw [hh]; simp)
        exact ⟨a, adapter.nice_name, hs', ha1, ha2⟩

/-- Claim C3 counterexample: on win32 the IPv6 branch applies no loopback
filter — an adapter whose first address is the loopback `::1` contributes
the scan entry `::1%1`, whose address component (the text before the
first `%`) is exactly `::1`, so the IPv6 scan list does include the
loopback address the claim says is excluded on every platform. -/
theorem get_ipv6_ips_win_loopback_counterexample :
    get_ipv6_ips true [⟨"Loopback Pseudo-Interface 1", [IPAddr.v6 "::1" 0 1]⟩]
      = Except.ok ["::1%1"]
    ∧ String.mk ((splitPercentAux ("::1%1").data []).getD 0 []) = "::1" :=
  ⟨rfl, rfl⟩

/-- Claim C3 (amended): the IPv4 scan list never contains `127.0.0.1` (on
any platform — the IPv4 path does not branch on the platform), and on
non-win32 platforms every entry of the IPv6 scan list is `address%zone`
with the address neither `::1` nor `fe80::1`; the win32 IPv6 branch
performs no such filtering. -/
theorem interface_filtering_amended (adapters : List Adapter) :
    (∀ s ∈ browse_ipv4_ips adapters, s ≠ "127.0.0.1")
    ∧ get_ipv6_ips false adapters = Except.ok (get_ipv6_ips_posix adapters)
    ∧ (∀ s ∈ get_ipv6_ips_posix adapters,
        ∃ a zone, s = a ++ "%" ++ zone ∧ a ≠ "::1" ∧ a ≠ "fe80::1") :=
  ⟨browse_ipv4_ips_no_loopback adapters, rfl, get_ipv6_ips_posix_filtered adapters⟩

/-- Claim C3 witness: on an adapter carrying the IPv4 loopback, a plain
IPv4 address, the IPv6 loopback and a scoped IPv6 address, the surviving
IPv4 entry is not `127.0.0.1` and the surviving IPv6 entry decomposes as
a non-loopback address plus zone. -/
theorem interface_filtering_witness :
    "10.0.0.5" ≠ "127.0.0.1"
    ∧ ∃ a zone, "fe80::5%en0" = a ++ "%" ++ zone ∧ a ≠ "::1" ∧ a ≠ "fe80::1" := by
  have h := interface_filtering_amended
    [⟨"en0", [IPAddr.v4 "127.0.0.1", IPAddr.v4 "10.0.0.5",
      IPAddr.v6 "::1" 0 1, IPAddr.v6 "fe80::5" 0 3]⟩]
  exact ⟨h.1 "10.0.0.5" (by decide), h.2.2 "fe80::5%en0" (by decide)⟩

/-- Claim C9: each convenience entry point forwards the caller's timeout
and binds exactly its well-known service type to its scan kind —
`browse_remoted` browses `_remoted._tcp.local.` over the IPv6 interface
list, `browse_mobdev2` browses `_apple-mobdev2._tcp.local.` over the
IPv4 interface list, and `browse_remotepairing` browses
`_remotepairing-manual-pairing._tcp.local.` over the IPv4 interface
list. -/
theorem service_catalog_bindings (win32 : Bool) (adapters : List Adapter)
    (timeout : Nat) (env : Nat → SessionEnv) :
    browse_remoted win32 adapters timeout env
      = (get_ipv6_ips win32 adapters).map
          (fun ips => browse "_remoted._tcp.local." ips timeout env)
    ∧ browse_mobdev2 adapters timeout env
      = browse "_apple-mobdev2._tcp.local." (browse_ipv4_ips adapters) timeout env
    ∧ browse_remotepairing adapters timeout env
      = browse "_remotepairing-manual-pairing._tcp.local."
          (browse_ipv4_ips adapters) timeout env :=
  ⟨rfl, rfl, rfl⟩

theorem teardownSession_ok (env : TeardownEnv)
    (h1 : ∀ e, env.taskState ≠ TaskState.failed e)
    (h2 : env.browserCancelError = none) (h3 : env.clientCloseError = none) :
    teardownSession env
      = ([TeardownEvent.taskCancelRequested, TeardownEvent.taskAwaited,
          TeardownEvent.browserCancelled, TeardownEvent.clientClosed], none) := by
  obtain ⟨ts, be, ce⟩ := env
  simp only at h1 h2 h3
  subst h2
  subst h3
  cases ts with
  | pending => rfl
  | cancelled => rfl
  | finished => rfl
  | failed e => exact absurd rfl (h1 e)

theorem browseTeardown_ok :
    ∀ (envs : List TeardownEnv),
      (∀ env ∈ envs, (∀ e, env.taskState ≠ TaskState.failed e)
        ∧ env.browserCancelError = none ∧ env.clientCloseError = none) →
      (browseTeardown envs).2 = none
      ∧ (browseTeardown envs).1.count TeardownEvent.taskAwaited = envs.length
      ∧ (browseTeardown envs).1.count TeardownEvent.browserCancelled = envs.length
      ∧ (browseTeardown envs).1.count TeardownEvent.clientClosed = envs.length := by
  intro envs
  induction envs with
  | nil => intro _; exact ⟨rfl, rfl, rfl, rfl⟩
  | cons env rest ih =>
    intro henv
    have h := henv env (List.mem_cons_self _ _)
    have hrest := ih (fun x hx => henv x (List.mem_cons_of_mem _ hx))
    have hts := teardownSession_ok env h.1 h.2.1 h.2.2
    have hbt : browseTeardown (env :: rest)
        = ([TeardownEvent.taskCancelRequested, TeardownEvent.taskAwaited,
            TeardownEvent.browserCancelled, TeardownEvent.clientClosed]
            ++ (browseTeardown rest).1,
          (browseTeardown rest).2) := by
      show (match teardownSession env with
        | (ev, some e) => (ev, some e)
        | (ev, none) =>
          let r := browseTeardown rest
          (ev ++ r.1, r.2)) = _
      rw [hts]
    rw [hbt]
    refine ⟨hrest.1, ?_, ?_, ?_⟩
    · rw [List.count_append, hrest.2.1,
        show ([TeardownEvent.taskCancelRequested, TeardownEvent.taskAwaited,
          TeardownEvent.browserCancelled, TeardownEvent.clientClosed] : List TeardownEvent).count
            TeardownEvent.taskAwaited = 1 from rfl, List.length_cons]
      exact Nat.add_comm 1 rest.length
    · rw [List.count_append, hrest.2.2.1,
        show ([TeardownEvent.taskCancelRequested, TeardownEvent.taskAwaited,
          TeardownEvent.browserCancelled, TeardownEvent.clientClosed] : List TeardownEvent).count
            TeardownEvent.browserCancelled = 1 from rfl, List.length_cons]
      exact Nat.add_comm 1 rest.length
    · rw [List.count_append, hrest.2.2.2,
        show ([TeardownEvent.taskCancelRequested, TeardownEvent.taskAwaited,
          TeardownEvent.browserCancelled, TeardownEvent.clientClosed] : List TeardownEvent).count
            TeardownEvent.clientClosed = 1 from rfl, List.length_cons]
      exact Nat.add_comm 1 rest.length

/-- Claim C5 counterexample: `close` does raise when the querying task
terminated with a stored non-cancellation exception, and a raising
teardown step aborts the remaining steps — with two sessions whose first
holds a failed task, no multicast client is ever closed and the exception
escapes the loop; likewise a raising browser cancel skips the client
close of its own session. -/
theorem teardown_abort_counterexample :
    (listenerClose (TaskState.failed "OSError")).2.2 = some "OSError"
    ∧ (browseTeardown [⟨TaskState.failed "OSError", none, none⟩,
        ⟨TaskState.pending, none, none⟩]).2 = some "OSError"
    ∧ (browseTeardown [⟨TaskState.failed "OSError", none, none⟩,
        ⟨TaskState.pending, none, none⟩]).1.count TeardownEvent.clientClosed = 0
    ∧ (teardownSession ⟨TaskState.pending, some "SocketError", none⟩).1.count
        TeardownEvent.clientClosed = 0
    ∧ (teardownSession ⟨TaskState.pending, some "SocketError", none⟩).2
        = some "SocketError" :=
  ⟨rfl, rfl, rfl, rfl, rfl⟩

/-- Claim C5 (amended): provided the querying task did not terminate with
a stored non-cancellation exception and the teardown collaborators do not
raise, `close` returns without raising, a second `close` on the same
session also returns without raising (idempotence), and the loop of
`browse` runs all three teardown steps for every session in the list —
one awaited task cancellation, one browser cancel and one client close
per session, with no exception escaping. -/
theorem close_idempotent_amended (ts : TaskState) (envs : List TeardownEnv)
    (hts : ∀ e, ts ≠ TaskState.failed e)
    (henv : ∀ env ∈ envs, (∀ e, env.taskState ≠ TaskState.failed e)
      ∧ env.browserCancelError = none ∧ env.clientCloseError = none) :
    (listenerClose ts).2.2 = none
    ∧ (listenerClose (listenerClose ts).2.1).2.2 = none
    ∧ (browseTeardown envs).2 = none
    ∧ (browseTeardown envs).1.count TeardownEvent.taskAwaited = envs.length
    ∧ (browseTeardown envs).1.count TeardownEvent.browserCancelled = envs.length
    ∧ (browseTeardown envs).1.count TeardownEvent.clientClosed = envs.length := by
  have hb := browseTeardown_ok envs henv
  refine ⟨?_, ?_, hb.1, hb.2.1, hb.2.2.1, hb.2.2.2⟩ <;>
    cases ts with
    | pending => rfl
    | cancelled => rfl
    | finished => rfl
    | failed e => exact absurd rfl (hts e)

/-- Claim C5 witness: a pending task closed twice raises nothing, and a
two-session teardown with healthy collaborators closes both clients. -/
theorem close_idempotent_amended_witness :
    (listenerClose TaskState.pending).2.2 = none
    ∧ (listenerClose (listenerClose TaskState.pending).2.1).2.2 = none
    ∧ (browseTeardown [⟨TaskState.finished, none, none⟩,
        ⟨TaskState.pending, none, none⟩]).2 = none
    ∧ (browseTeardown [⟨TaskState.finished, none, none⟩,
        ⟨TaskState.pending, none, none⟩]).1.count TeardownEvent.taskAwaited = 2
    ∧ (browseTeardown [⟨TaskState.finished, none, none⟩,
        ⟨TaskState.pending, none, none⟩]).1.count TeardownEvent.browserCancelled = 2
    ∧ (browseTeardown [⟨TaskState.finished, none, none⟩,
        ⟨TaskState.pending, none, none⟩]).1.count TeardownEvent.clientClosed = 2 :=
  close_idempotent_amended TaskState.pending
    [⟨TaskState.finished, none, none⟩, ⟨TaskState.pending, none, none⟩]
    (fun e => by simp)
    (by
      intro env henv
      have h : env = ⟨TaskState.finished, none, none⟩
          ∨ env = ⟨TaskState.pending, none, none⟩ := by simpa using henv
      rcases h with h | h <;> subst h <;> exact ⟨fun e => by simp, rfl, rfl⟩)

/-- Claim C6: every session teardown first requests cancellation of the
querying task and awaits its termination, and only afterwards (if no
exception interrupted) cancels the browser subscription and then closes
the multicast client; a cancellation signal raised while awaiting the
task is swallowed, never propagated. -/
theorem teardown_order (env : TeardownEnv) :
    ∃ t, (teardownSession env).1
        = TeardownEvent.taskCancelRequested :: TeardownEvent.taskAwaited :: t
      ∧ List.Sublist t [TeardownEvent.browserCancelled, TeardownEvent.clientClosed]
      ∧ ((env.taskState = TaskState.pending ∨ env.taskState = TaskState.cancelled) →
          (listenerClose env.taskState).2.2 = none) := by
  obtain ⟨ts, be, ce⟩ := env
  cases ts <;> cases be <;> cases ce <;>
    refine ⟨_, rfl, by decide, ?_⟩ <;>
    first
      | intro _; rfl
      | (intro h; rcases h with h | h <;> simp at h)

/-- Claim C6 witness: for a session with a pending task and healthy
collaborators, the swallowed-cancellation conclusion holds. -/
theorem teardown_order_witness :
    (listenerClose (TeardownEnv.mk TaskState.pending none none).taskState).2.2 = none := by
  obtain ⟨t, ht, hsub, himp⟩ := teardown_order ⟨TaskState.pending, none, none⟩
  exact himp (Or.inl rfl)

example : dictEq [("a", "1"), ("b", "2")] [("b", "2"), ("a", "1")] = true := by decide
example : dictEq [("a", "1")] [("a", "2")] = false := by decide
example : browse_ipv4_ips [⟨"lo", [IPAddr.v4 "127.0.0.1"]⟩, ⟨"en0", [IPAddr.v4 "10.0.0.5", IPAddr.v6 "fe80::5" 0 3]⟩]
    = ["10.0.0.5"] := by decide
example : get_ipv6_ips_posix [⟨"lo", [IPAddr.v6 "::1" 0 1, IPAddr.v6 "fe80::1" 0 1]⟩, ⟨"en0", [IPAddr.v6 "fe80::5" 0 3]⟩]
    = ["fe80::5%en0"] := by decide
example : get_ipv6_ips true [⟨"lo", [IPAddr.v6 "::1" 0 1]⟩] = Except.ok ["::1%1"] := rfl
example :
    (runSession "fe80::9%en0"
      { notifications := [⟨"_x._tcp.local.", "inst", 0⟩], resolveCompletes := true,
        resolve := fun _ => ⟨["10.0.0.7"], ["fe80::5"], [("k", "v")], 49152⟩,
        completionTime := 0 }).addresses = ["10.0.0.7", "fe80::5%en0"] := by decide
